import Mathlib

/-!
Verification of the f5vpn-login command-line VPN client (Python 3, single
script) against its natural-language specification.

Each section below is a shallow embedding of one routine of the script:
pure string/list manipulation is translated to Lean functions on `List Char`
and `List Nat` (bytes), stateful loops become explicit step functions over a
state record, OS and TLS interactions are modelled by an oracle datatype
listing the outcomes the call sites distinguish, and fallible code returns
`Option`/`Except`.  Regular expressions are specialised to the concrete
patterns the script uses and translated to explicit scanning functions with
the exact Python `re` semantics at those patterns (leftmost match, greedy
`.*` within a line, `$` matching both before a newline and at the end of the
buffer, `^` in multiline mode matching at the start of the buffer and right
after a newline).
-/

/-! ## Manual resolv.conf DNS teardown (`ManualFrobbingDNSMixin._teardown_dns`)

The relevant state is the pair of files `/etc/resolv.conf` and
`/etc/resolv.conf.f5_bak`.  A file is a modification time together with an
abstract content tag; `none` means the path does not exist.  The method body
is wrapped in `try: ... except: pass`, so a failing `os.stat`, `os.rename` or
`os.unlink` leaves the state reached so far unchanged.
-/

/-- A file on disk: `st_mtime` as observed by `os.stat`, plus an abstract
content identifier used to express that a rename moves the file unchanged. -/
structure MFile where
  mtime : Int
  content : Nat
deriving DecidableEq, Repr

/-- The two paths touched by the manual DNS backend. -/
structure ResolvFS where
  resolv_conf : Option MFile
  resolv_bak : Option MFile
deriving DecidableEq, Repr

/-- Embedding of `ManualFrobbingDNSMixin._teardown_dns` (f5vpn-login.py lines
289-299).  `recorded` is `self.resolv_conf_timestamp`.  The `try/except: pass`
wrapper makes every failure (missing file for `stat`, missing source for
`rename`/`unlink`) leave the filesystem as it was at that point. -/
def teardown_dns_manual (recorded : Int) (fs : ResolvFS) : ResolvFS :=
  if recorded = 0 then
    fs
  else
    match fs.resolv_conf with
    | none => fs -- os.stat raises, caught by the bare except
    | some f =>
      if f.mtime = recorded then
        match fs.resolv_bak with
        | none => fs -- os.rename raises, caught
        | some b => { resolv_conf := some b, resolv_bak := none }
      else
        -- warning printed to stderr, then the backup is unlinked
        { resolv_conf := some f, resolv_bak := none }

/-! ## PPPD shutdown (`shutdown_pppd`)

`os.waitpid(pid, os.WNOHANG)` returns `(0, 0)` while the child is still
running and `(pid, sts)` once it has exited, where `sts` is the raw wait
status (0 for a clean exit).  The child is reaped by that call as soon as it
returns a nonzero pid; a later `os.kill` on the reaped pid raises
`ProcessLookupError`.
-/

/-- State of the PPPD child at the time `shutdown_pppd` is called; `exited
sts` carries the raw wait status (0 means a clean exit). -/
inductive ChildState where
  | running : ChildState
  | exited (sts : Nat) : ChildState
deriving DecidableEq, Repr

/-- What `shutdown_pppd` ends up doing. -/
inductive ShutdownOutcome where
  | reportedExit (sts : Nat) : ShutdownOutcome -- printed the status, no signal, no second wait
  | sigtermAndWait : ShutdownOutcome -- sent SIGTERM to the live child and block-waited
  | killError : ShutdownOutcome -- os.kill raised ProcessLookupError on the reaped pid
deriving DecidableEq, Repr

/-- Embedding of `shutdown_pppd` (f5vpn-login.py lines 846-853).  The guard in
the source is `if res_pid and result != 0`, so a child that already exited
with raw status 0 falls into the `else` branch: the pid was just reaped by
the WNOHANG wait, hence `os.kill(pid, SIGTERM)` raises `ProcessLookupError`
before the blocking `os.waitpid` is reached. -/
def shutdown_pppd (c : ChildState) : ShutdownOutcome :=
  match c with
  | ChildState.running => ShutdownOutcome.sigtermAndWait -- waitpid gave (0, 0)
  | ChildState.exited sts =>
    if sts ≠ 0 then ShutdownOutcome.reportedExit sts
    else ShutdownOutcome.killError

/-! ## Query-string decoder (`decode_params`)

`decode_params` splits the parameter string on `&`, skips empty pieces,
splits each piece on the first `=`, and for a key matching `q[0-9]+` runs
`v.decode('hex')`.  The script runs under Python 3 (`#!/usr/bin/env
python3`), where `str` has no `decode` method, so that call raises
`AttributeError` unconditionally; a piece without `=` makes the tuple
unpacking raise `ValueError`.
-/

/-- Exceptions the decoder can raise. -/
inductive PyErr where
  | valueError : PyErr -- unpacking `k, v = param.split('=', 1)` with no `=`
  | attributeError : PyErr -- `str` object has no attribute `decode`
deriving DecidableEq, Repr

/-- Split a list on the first occurrence of `sep`; `none` when absent.
Models Python `s.split(sep, 1)` yielding two pieces (or raising on unpack
when `sep` is absent, handled at the call site). -/
def splitFirst (sep : Char) : List Char → Option (List Char × List Char)
  | [] => none
  | c :: t =>
    if c = sep then some ([], t)
    else (splitFirst sep t).map (fun p => (c :: p.1, p.2))

/-- Split a list on every occurrence of `sep`, keeping empty pieces, like
Python `s.split(sep)` on a nonempty separator. -/
def splitAll (sep : Char) : List Char → List (List Char)
  | [] => [[]]
  | c :: t =>
    if c = sep then [] :: splitAll sep t
    else
      match splitAll sep t with
      | [] => [[c]] -- unreachable: splitAll never returns []
      | p :: ps => (c :: p) :: ps

/-- Test for `re.match('q[0-9]+', k)`: an anchored prefix match, so `k` must
start with `q` followed by at least one ASCII digit. -/
def matchesQnn : List Char → Bool
  | 'q' :: d :: _ => d.isDigit
  | _ => false

/-- Python dict assignment `d[k] = v`: replace the value in place if the key
is present, else append the binding. -/
def dictSet (k v : List Char) : List (List Char × List Char) → List (List Char × List Char)
  | [] => [(k, v)]
  | (k', v') :: t => if k' = k then (k, v) :: t else (k', v') :: dictSet k v t

/-- Body of the `for param in paramsStr.split('&')` loop of `decode_params`. -/
def decode_params_loop (d : List (List Char × List Char)) :
    List (List Char) → Except PyErr (List (List Char × List Char))
  | [] => Except.ok d
  | p :: rest =>
    if p = [] then decode_params_loop d rest
    else
      match splitFirst '=' p with
      | none => Except.error PyErr.valueError
      | some (k, v) =>
        if matchesQnn k then
          -- Python 3: `v.decode('hex')` on a `str` raises AttributeError
          Except.error PyErr.attributeError
        else
          decode_params_loop (dictSet k v d) rest

/-- Embedding of `decode_params` (f5vpn-login.py lines 639-649) as executed
by Python 3. -/
def decode_params (s : List Char) : Except PyErr (List (List Char × List Char)) :=
  decode_params_loop [] (splitAll '&' s)

/-! ## Session cookie scan in `do_login`

`do_login` runs `re.compile('^Set-Cookie: MRHSession=([^;]*);',
re.MULTILINE).finditer(result)` and folds the matches through

    session = None
    for match: session = None if group(1) == "deleted" else group(1)

The regex is modelled by a character-level scanner.  In multiline mode `^`
matches at position 0 and right after each newline; `[^;]*` is greedy and in
Python also matches newline characters, so the capture runs up to the first
`;` after the literal prefix (no `;` means no match).  `finditer` yields
non-overlapping matches and resumes scanning at the end of each match, which
the scanner reproduces by consuming the matched region: positions strictly
inside an attempted literal-prefix match can never be line starts because the
prefix contains no newline.
-/

/-- Scanner mode: seeking a line start, matching the literal prefix
`Set-Cookie: MRHSession=` (with `rem` still to match), or capturing `[^;]*`
with the capture accumulated in reverse. -/
inductive CookieMode where
  | seek (atLineStart : Bool) : CookieMode
  | litRem (rem : List Char) : CookieMode
  | capture (acc : List Char) : CookieMode
deriving DecidableEq, Repr

/-- The literal part of the pattern `^Set-Cookie: MRHSession=([^;]*);`. -/
def cookieLit : List Char := "Set-Cookie: MRHSession=".toList

/-- After consuming one literal character, either keep matching the literal
or start the capture when the literal is exhausted. -/
def cookieAdvance (rem : List Char) : CookieMode :=
  match rem with
  | [] => CookieMode.capture []
  | _ => CookieMode.litRem rem

/-- Character-level scanner for all matches of
`^Set-Cookie: MRHSession=([^;]*);` in multiline mode, in order. -/
def cookieScan (m : CookieMode) : List Char → List (List Char)
  | [] => []
  | c :: t =>
    match m with
    | CookieMode.seek atLS =>
      if atLS then
        match cookieLit with
        | [] => [] -- unreachable: the literal is nonempty
        | p :: ps =>
          if c = p then cookieScan (cookieAdvance ps) t
          else cookieScan (CookieMode.seek (c = '\n')) t
      else cookieScan (CookieMode.seek (c = '\n')) t
    | CookieMode.litRem rem =>
      match rem with
      | [] => [] -- unreachable: `cookieAdvance` never stores an empty rest
      | p :: ps =>
        if c = p then cookieScan (cookieAdvance ps) t
        else cookieScan (CookieMode.seek (c = '\n')) t
    | CookieMode.capture acc =>
      if c = ';' then acc.reverse :: cookieScan (CookieMode.seek false) t
      else cookieScan (CookieMode.capture (c :: acc)) t

/-- All `MRHSession` cookie values matched in `result`, in order of
occurrence: the model of the `finditer` call in `do_login`. -/
def cookieMatches (result : List Char) : List (List Char) :=
  cookieScan (CookieMode.seek true) result

/-- The literal string `deleted` compared against each captured value. -/
def deletedVal : List Char := "deleted".toList

/-- Embedding of the session-extraction loop of `do_login` (f5vpn-login.py
lines 491-498): the running `session` variable starts at `None`, is reset to
`None` by a `deleted` match and set to the captured value otherwise. -/
def do_login_session (result : List Char) : Option (List Char) :=
  (cookieMatches result).foldl
    (fun _ sessid => if sessid = deletedVal then none else some sessid) none

/-! ## Interface readiness polling (`LinuxPlatform.wait_for_interface`)

Each poll either reads and strips `/sys/class/net/<iface>/operstate`
successfully (observation `state s`) or fails to open it (`ioError`).  The
loop keeps a single flag `already_unknown`, initially false: a state `up`
exits the loop; `unknown` exits when the flag is already set and otherwise
sets it; any other successfully read state sets the flag; an IOError leaves
the flag untouched.  A 5 second sleep separates polls (not modelled: only
the sequence of observations matters to the claim).
-/

/-- One poll of the operstate file: the stripped state text, or an IOError
from `open`. -/
inductive Obs where
  | state (s : List Char) : Obs
  | ioError : Obs
deriving DecidableEq, Repr

/-- The state text `up`. -/
def upState : List Char := "up".toList

/-- The state text `unknown`. -/
def unknownState : List Char := "unknown".toList

/-- One iteration of the `wait_for_interface` loop body (f5vpn-login.py lines
218-236): returns (loop exits with the interface considered up, new value of
`already_unknown`). -/
def wfi_step (already_unknown : Bool) (o : Obs) : Bool × Bool :=
  match o with
  | Obs.state s =>
    if s = upState then (true, already_unknown)
    else if s = unknownState then
      if already_unknown then (true, already_unknown)
      else (false, true)
    else (false, true)
  | Obs.ioError => (false, already_unknown)

/-- Run `wait_for_interface` over a sequence of observations: `some i` means
the loop declared the interface up at observation `i`; `none` means it was
still polling when the sequence ran out. -/
def wfi_run (already_unknown : Bool) : List Obs → Option Nat
  | [] => none
  | o :: t =>
    let r := wfi_step already_unknown o
    if r.1 then some 0 else (wfi_run r.2 t).map (· + 1)

/-! ## PPPD log watcher (`LogWatcher`)

`LogWatcher.process` appends each chunk to `collected_log` and, for every
field still `None`, runs `re.search(exp, collected_log, re.MULTILINE)` with

  - `Using interface (.*)$`
  - `Connect: .* <--> (.*)$`
  - `remote IP address (.*)$`
  - `local  IP address (.*)$`

None of the patterns is anchored with `^`; `.` does not match a newline, so
a capture `(.*)$` is the text from the end of the literal up to the next
newline or, crucially, up to the end of the buffer (`$` also matches there).
For the `Connect` pattern the inner `.*` is greedy, so the capture starts
after the last ` <--> ` of the matched line.  When all four fields are set
and `notified` is still false, `ip_up(iface_name, tty, local_ip, remote_ip)`
is invoked once and `notified` becomes true.
-/

/-- Leftmost occurrence of `pat` in the buffer: returns the suffix just
after the occurrence, or `none`. -/
def findTail (pat : List Char) : List Char → Option (List Char)
  | [] => if pat.isPrefixOf [] then some [] else none
  | c :: t =>
    if pat.isPrefixOf (c :: t) then some ((c :: t).drop pat.length)
    else findTail pat t

/-- The current line: everything up to the next newline or the end of the
buffer.  This is what `(.*)$` captures in multiline mode. -/
def lineOf (l : List Char) : List Char := l.takeWhile (fun c => c ≠ '\n')

/-- Model of `re.search("<lit>(.*)$", log, re.MULTILINE).group(1)` for a
literal `lit` without metacharacters: text after the leftmost occurrence of
`lit`, up to the end of the line or buffer. -/
def getMatchLit (lit log : List Char) : Option (List Char) :=
  (findTail lit log).map lineOf

/-- Suffix after the last occurrence of `pat` in `l`, or `none` when `pat`
does not occur: the greedy backtracking of `.* <--> (.*)` inside one line. -/
def afterLast (pat : List Char) : List Char → Option (List Char)
  | [] => none
  | c :: t =>
    match afterLast pat t with
    | some r => some r
    | none =>
      if pat.isPrefixOf (c :: t) then some ((c :: t).drop pat.length)
      else none

/-- The literal `Connect: ` of the tty pattern. -/
def connectLit : List Char := "Connect: ".toList

/-- The literal ` <--> ` of the tty pattern. -/
def arrowLit : List Char := " <--> ".toList

/-- Model of `re.search("Connect: .* <--> (.*)$", log, re.MULTILINE)`: at the
leftmost position where the literal `Connect: ` matches and the rest of that
line contains ` <--> `, capture the text after the last ` <--> ` of the
line; otherwise keep scanning (neither `.*` nor the literals can cross a
newline). -/
def getMatchConnect : List Char → Option (List Char)
  | [] => none
  | c :: t =>
    if connectLit.isPrefixOf (c :: t) then
      match afterLast arrowLit (lineOf ((c :: t).drop connectLit.length)) with
      | some cap => some cap
      | none => getMatchConnect t
    else getMatchConnect t

/-- The mutable state of a `LogWatcher` instance. -/
structure LogWatcher where
  collected_log : List Char
  iface_name : Option (List Char)
  tty : Option (List Char)
  remote_ip : Option (List Char)
  local_ip : Option (List Char)
  notified : Bool
deriving DecidableEq, Repr

/-- A fresh `LogWatcher` (class-level defaults of the source). -/
def LogWatcher.init : LogWatcher :=
  { collected_log := [], iface_name := none, tty := none,
    remote_ip := none, local_ip := none, notified := false }

/-- Arguments of one `ip_up(iface_name, tty, local_ip, remote_ip)` call. -/
structure IpUpCall where
  iface : List Char
  tty : List Char
  local_ip : List Char
  remote_ip : List Char
deriving DecidableEq, Repr

/-- Keep an already collected field, otherwise try the fresh match: the
`if self.<field> is None` pattern of `LogWatcher.process`. -/
def keepOr (cur res : Option (List Char)) : Option (List Char) :=
  match cur with
  | some v => some v
  | none => res

/-- Embedding of `LogWatcher.process` (f5vpn-login.py lines 668-687):
returns the updated watcher and the `ip_up` call made, if any. -/
def LogWatcher.process (w : LogWatcher) (logmsg : List Char) :
    LogWatcher × Option IpUpCall :=
  let log := w.collected_log ++ logmsg
  let ifn := keepOr w.iface_name (getMatchLit "Using interface ".toList log)
  let ttyv := keepOr w.tty (getMatchConnect log)
  let rip := keepOr w.remote_ip (getMatchLit "remote IP address ".toList log)
  let lip := keepOr w.local_ip (getMatchLit "local  IP address ".toList log)
  match ifn, ttyv, rip, lip with
  | some a, some b, some c, some d =>
    if w.notified then
      ({ collected_log := log, iface_name := ifn, tty := ttyv,
         remote_ip := rip, local_ip := lip, notified := true }, none)
    else
      ({ collected_log := log, iface_name := ifn, tty := ttyv,
         remote_ip := rip, local_ip := lip, notified := true },
       some { iface := a, tty := b, local_ip := d, remote_ip := c })
  | _, _, _, _ =>
    ({ collected_log := log, iface_name := ifn, tty := ttyv,
       remote_ip := rip, local_ip := lip, notified := w.notified }, none)

/-- Feed a sequence of chunks to a watcher and collect every `ip_up` call in
order. -/
def runLogWatcher (w : LogWatcher) : List (List Char) → List IpUpCall
  | [] => []
  | c :: cs =>
    let r := w.process c
    match r.2 with
    | some call => call :: runLogWatcher r.1 cs
    | none => runLogWatcher r.1 cs

/-- The four log lines of the claimed byte sequence, in stream order. -/
def logLine1 : List Char := "Using interface ppp0\n".toList

/-- Second log line. -/
def logLine2 : List Char := "Connect: /dev/pts/3 <--> /dev/pts/5\n".toList

/-- Third log line. -/
def logLine3 : List Char := "local  IP address 10.0.0.2\n".toList

/-- Fourth log line. -/
def logLine4 : List Char := "remote IP address 10.0.0.1\n".toList

/-- The full log byte sequence of the claim. -/
def fullLog : List Char := logLine1 ++ logLine2 ++ logLine3 ++ logLine4

/-- The `ip_up` call the claim expects. -/
def expectedCall : IpUpCall :=
  { iface := "ppp0".toList, tty := "/dev/pts/5".toList,
    local_ip := "10.0.0.2".toList, remote_ip := "10.0.0.1".toList }

/-- Either start a new chunk with `x` (cut) or prepend `x` to the first
following chunk: used to enumerate the splits of the log at line ends. -/
def glueChunk (cut : Bool) (x : List Char) (rest : List (List Char)) :
    List (List Char) :=
  if cut then
    x :: rest
  else
    match rest with
    | [] => [x]
    | y :: t => (x ++ y) :: t

/-- All splits of the four log lines into nonempty chunks whose boundaries
lie at line ends, indexed by whether each of the three inner line boundaries
is a chunk boundary. -/
def lineChunks (b1 b2 b3 : Bool) : List (List Char) :=
  glueChunk b1 logLine1 (glueChunk b2 logLine2 (glueChunk b3 logLine3 [logLine4]))

/-! ## Reverse-DNS generation (`routespec_to_revdns`)

The source starts from the domain `in-addr.arpa`, prepends one octet per
full 8 bits of prefix, and for a ragged prefix enumerates the block of
`2 ^ (8 - bits mod 8)` values starting at
`netparts[i] & ~(2 ** remaining_bits - 1)`.  Domains are lists of
characters; `str(n)` is `Nat.repr`.
-/

/-- Python `n & ~(2 ** r - 1)` for a nonnegative `n`: clear the low `r`
bits. -/
def andNotMask (n r : Nat) : Nat := 2 ^ r * (n / 2 ^ r)

/-- The while loop of `routespec_to_revdns` with loop variables `i` (octet
index) and `bits` explicit; `domain` is the accumulated domain.  Python
would raise IndexError past the end of `netparts`; the claims only concern
`bits ≤ 32` with four octets, where the index stays in range, so the model
totalises the lookup with `getD` (never hit at a default under those
bounds). -/
def revdnsAux (netparts : List Nat) (i bits : Nat) (domain : List Char) :
    List (List Char) :=
  if _h : 8 ≤ bits then
    revdnsAux netparts (i + 1) (bits - 8)
      ((Nat.repr (netparts.getD i 0)).toList ++ '.' :: domain)
  else if bits = 0 then [domain]
  else
    let remaining_bits := 8 - bits
    let start_addr := andNotMask (netparts.getD i 0) remaining_bits
    (List.range (2 ^ remaining_bits)).map
      (fun n => (Nat.repr (start_addr + n)).toList ++ '.' :: domain)
termination_by bits
decreasing_by omega

/-- The base domain `in-addr.arpa`. -/
def arpaBase : List Char := "in-addr.arpa".toList

/-- Embedding of `routespec_to_revdns` (f5vpn-login.py lines 893-907). -/
def routespec_to_revdns (netparts : List Nat) (bits : Nat) : List (List Char) :=
  revdnsAux netparts 0 bits arpaBase

/-! ## Netmask parsing (`parse_net_bits`, dotted-netmask branch)

The module-level loop `for x in range(33): mask2bits[2**32 - 2**(32-x)] = x`
builds a dict whose 33 keys are exactly the contiguous 32-bit netmasks.
`parse_net_bits` on a spec `net/A.B.C.D` folds the netmask octets into one
integer, scales by `256 ** (4 - len(netmaskparts))`, and looks the result up
in the dict; a missing key raises the InvalidRouteSpec error.  Since the
keys are pairwise distinct, the dict lookup is equivalent to finding the
unique `x` in `range(33)` whose mask equals the probe.
-/

/-- Lookup in the `mask2bits` dict: the first (unique) `x` in `0..32` with
`2 ** 32 - 2 ** (32 - x)` equal to `m`, if any. -/
def mask2bits_get (m : Nat) : Option Nat :=
  (List.range 33).find? (fun x => 2 ^ 32 - 2 ^ (32 - x) == m)

/-- Embedding of the dotted-netmask branch of `parse_net_bits` (f5vpn-login.py
lines 866-881) on an already numeric spec: `net` are the octets before `/`,
`netmaskparts` the octets of the dotted netmask.  Returns the padded
netparts and the prefix length, or `none` for the InvalidRouteSpec error. -/
def parse_net_bits_dotted (net netmaskparts : List Nat) :
    Option (List Nat × Nat) :=
  let netparts := net ++ List.replicate (4 - net.length) 0
  let netmask := (netmaskparts.foldl (fun acc n => acc * 256 + n) 0)
      * 256 ^ (4 - netmaskparts.length)
  (mask2bits_get netmask).map (fun bits => (netparts, bits))

/-! ## HTTP response reading in `send_request`

The read loop pulls one byte at a time from the TLS socket inside
`try: ... except (socket.error, ssl.SSLError): break`, so an empty read or
any socket/SSL error ends the loop, and the collected bytes are then decoded
with `data.decode('utf-8')`, which raises UnicodeDecodeError when the
accumulated bytes are not valid UTF-8.  A read script lists the outcome of
each successive `ssl_socket.read(1)` call.
-/

/-- Outcome of one `ssl_socket.read(1)`: a chunk of bytes (empty means EOF)
or a raised `socket.error`/`ssl.SSLError`. -/
inductive RRes where
  | bytes (b : List Nat) : RRes
  | err : RRes
deriving DecidableEq, Repr

/-- The bytes accumulated by the read loop of `send_request` (f5vpn-login.py
lines 429-436) when the reads behave as scripted: stop at the first EOF or
error.  An exhausted script corresponds to a read that never returns and is
mapped to what was collected so far (the claims never depend on that case). -/
def send_request_body : List RRes → List Nat
  | [] => []
  | RRes.bytes [] :: _ => []
  | RRes.bytes b :: rest => b ++ send_request_body rest
  | RRes.err :: _ => []

/-- Continuation byte test `0x80 ≤ c ≤ 0xBF` of strict UTF-8. -/
def utf8Cont (c : Nat) : Bool := 128 ≤ c && c ≤ 191

/-- Allowed second byte after a three-byte leader, per the strict (Python)
UTF-8 decoder: excludes overlong encodings and surrogates. -/
def utf8Second3 (b c : Nat) : Bool :=
  if b = 224 then 160 ≤ c && c ≤ 191
  else if b = 237 then 128 ≤ c && c ≤ 159
  else utf8Cont c

/-- Allowed second byte after a four-byte leader, per the strict UTF-8
decoder: excludes overlong encodings and code points beyond U+10FFFF. -/
def utf8Second4 (b c : Nat) : Bool :=
  if b = 240 then 144 ≤ c && c ≤ 191
  else if b = 244 then 128 ≤ c && c ≤ 143
  else utf8Cont c

/-- Strict UTF-8 decoding of a byte list into code points, as performed by
`bytes.decode('utf-8')`: `none` models a raised UnicodeDecodeError (invalid
leader, bad continuation byte, or truncated sequence). -/
def utf8Decode : List Nat → Option (List Nat)
  | [] => some []
  | b :: t =>
    if b ≤ 127 then
      (utf8Decode t).map (fun u => b :: u)
    else if 194 ≤ b && b ≤ 223 then
      match t with
      | c :: t2 =>
        if utf8Cont c then
          (utf8Decode t2).map (fun u => ((b - 192) * 64 + (c - 128)) :: u)
        else none
      | [] => none
    else if 224 ≤ b && b ≤ 239 then
      match t with
      | c :: d :: t3 =>
        if utf8Second3 b c && utf8Cont d then
          (utf8Decode t3).map
            (fun u => ((b - 224) * 4096 + (c - 128) * 64 + (d - 128)) :: u)
        else none
      | _ => none
    else if 240 ≤ b && b ≤ 244 then
      match t with
      | c :: d :: e :: t4 =>
        if utf8Second4 b c && utf8Cont d && utf8Cont e then
          (utf8Decode t4).map
            (fun u => ((b - 240) * 262144 + (c - 128) * 4096
              + (d - 128) * 64 + (e - 128)) :: u)
        else none
      | _ => none
    else none

/-- Result of `send_request` after the read loop: the accumulated bytes
decoded as UTF-8, `none` when the final `data.decode('utf-8')` raises. -/
def send_request_read (script : List RRes) : Option (List Nat) :=
  utf8Decode (send_request_body script)

/-! ## Relay event loop (`run_event_loop`)

The loop state consists of the three byte buffers `data_to_pppd`,
`data_to_ssl`, `data_to_ssl_buf2` and the two blocking flags.  One loop
iteration performs, in source order: the select call and optional keepalive
send (no effect on buffers or flags), a log-pipe read, a PTY read (only when
`data_to_ssl` is empty), a TLS read (only when `data_to_pppd` is empty), a
PTY write (when `data_to_pppd` is nonempty), the promotion of `data_to_ssl`
into an empty `data_to_ssl_buf2`, and a TLS write (when `data_to_ssl_buf2`
is nonempty).  An oracle record gives the outcome of each potential call;
`none` as the step result means the loop terminated this iteration (EOF
print + `break`, or an uncaught exception propagating out).
-/

/-- Outcome of an `os.read`: data (empty list means EOF and ends the loop),
EAGAIN/EINTR (caught and ignored), or another OSError (re-raised). -/
inductive OsRead where
  | data (b : List Nat) : OsRead
  | again : OsRead
  | fail : OsRead
deriving DecidableEq, Repr

/-- Outcome of an `ssl_socket.read`: data (empty means EOF), the two
retryable SSL conditions, or another SSLError (re-raised). -/
inductive SslRead where
  | data (b : List Nat) : SslRead
  | wantRead : SslRead
  | wantWrite : SslRead
  | fail : SslRead
deriving DecidableEq, Repr

/-- Outcome of an `os.write`: byte count written, EAGAIN/EINTR, or another
OSError (re-raised). -/
inductive OsWrite where
  | wrote (n : Nat) : OsWrite
  | again : OsWrite
  | fail : OsWrite
deriving DecidableEq, Repr

/-- Outcome of an `ssl_socket.write`: complete write (SSL write never
consumes a strict prefix; the source asserts this), the two retryable SSL
conditions, or another SSLError (re-raised). -/
inductive SslWrite where
  | ok : SslWrite
  | wantRead : SslWrite
  | wantWrite : SslWrite
  | fail : SslWrite
deriving DecidableEq, Repr

/-- Oracle for one iteration of the relay loop: what each call site would
return if executed this time around. -/
structure RelayEnv where
  logRead : OsRead
  pppdRead : OsRead
  sslRead : SslRead
  pppdWrite : OsWrite
  sslWrite : SslWrite
deriving DecidableEq, Repr

/-- The buffers and flags of `run_event_loop`. -/
structure RelayState where
  data_to_pppd : List Nat
  data_to_ssl : List Nat
  data_to_ssl_buf2 : List Nat
  ssl_write_blocked_on_read : Bool
  ssl_read_blocked_on_write : Bool
deriving DecidableEq, Repr

/-- Log pipe read (f5vpn-login.py lines 770-778): EOF breaks the loop, data
goes to the log watcher and leaves the relay buffers alone. -/
def stepLog (e : RelayEnv) (s : RelayState) : Option RelayState :=
  match e.logRead with
  | OsRead.data [] => none
  | OsRead.data _ => some s
  | OsRead.again => some s
  | OsRead.fail => none

/-- PTY read (lines 781-790), only when `data_to_ssl` is empty. -/
def stepReadPppd (e : RelayEnv) (s : RelayState) : Option RelayState :=
  if s.data_to_ssl ≠ [] then some s
  else
    match e.pppdRead with
    | OsRead.data [] => none
    | OsRead.data b => some { s with data_to_ssl := b }
    | OsRead.again => some s
    | OsRead.fail => none

/-- TLS read (lines 793-807), only when `data_to_pppd` is empty.  The source
clears `ssl_read_blocked_on_write` before the read and sets it again only on
`SSL_ERROR_WANT_WRITE`. -/
def stepReadSsl (e : RelayEnv) (s : RelayState) : Option RelayState :=
  if s.data_to_pppd ≠ [] then some s
  else
    match e.sslRead with
    | SslRead.data [] => none
    | SslRead.data b =>
      some { s with data_to_pppd := b, ssl_read_blocked_on_write := false }
    | SslRead.wantRead => some { s with ssl_read_blocked_on_write := false }
    | SslRead.wantWrite => some { s with ssl_read_blocked_on_write := true }
    | SslRead.fail => none

/-- PTY write (lines 811-818), when `data_to_pppd` is nonempty: drop the
written byte count from the front. -/
def stepWritePppd (e : RelayEnv) (s : RelayState) : Option RelayState :=
  if s.data_to_pppd = [] then some s
  else
    match e.pppdWrite with
    | OsWrite.wrote n => some { s with data_to_pppd := s.data_to_pppd.drop n }
    | OsWrite.again => some s
    | OsWrite.fail => none

/-- Promotion (lines 821-826): move the whole content of `data_to_ssl` into
`data_to_ssl_buf2`, but only when the latter is empty. -/
def stepPromote (s : RelayState) : RelayState :=
  if s.data_to_ssl_buf2 = [] ∧ s.data_to_ssl ≠ [] then
    { s with data_to_ssl_buf2 := s.data_to_ssl, data_to_ssl := [] }
  else s

/-- TLS write (lines 828-842), when `data_to_ssl_buf2` is nonempty.  The
source clears `ssl_write_blocked_on_read` before the write; a successful
write consumes the entire buffer (asserted in the source) and clears it;
`SSL_ERROR_WANT_READ` sets the flag; `SSL_ERROR_WANT_WRITE` leaves the
buffer for retry. -/
def stepWriteSsl (e : RelayEnv) (s : RelayState) : Option RelayState :=
  if s.data_to_ssl_buf2 = [] then some s
  else
    match e.sslWrite with
    | SslWrite.ok =>
      some { s with data_to_ssl_buf2 := [], ssl_write_blocked_on_read := false }
    | SslWrite.wantRead => some { s with ssl_write_blocked_on_read := true }
    | SslWrite.wantWrite => some { s with ssl_write_blocked_on_read := false }
    | SslWrite.fail => none

/-- One loop iteration up to but excluding the TLS write: after this point
`data_to_ssl_buf2` holds exactly the bytes the TLS write will be offered. -/
def preWriteSsl (e : RelayEnv) (s : RelayState) : Option RelayState :=
  match stepLog e s with
  | none => none
  | some s1 =>
    match stepReadPppd e s1 with
    | none => none
    | some s2 =>
      match stepReadSsl e s2 with
      | none => none
      | some s3 =>
        match stepWritePppd e s3 with
        | none => none
        | some s4 => some (stepPromote s4)

/-- One full iteration of the relay loop body. -/
def relayStep (e : RelayEnv) (s : RelayState) : Option RelayState :=
  match preWriteSsl e s with
  | none => none
  | some t => stepWriteSsl e t

/-! ## Spec-side predicates and example inputs used by the theorems -/

/-- Readiness characterisation of `wait_for_interface` used by the amended
claim: observation `i` ends the polling loop exactly when it reads `up`, or
reads `unknown` while `already_unknown` is set, and the flag (starting at
`b`) is set exactly after some earlier successful read of a state other
than `up`. -/
def wfiReady (b : Bool) (l : List Obs) (i : Nat) : Prop :=
  l.get? i = some (Obs.state upState) ∨
    (l.get? i = some (Obs.state unknownState) ∧
      (b = true ∨ ∃ j s, j < i ∧ l.get? j = some (Obs.state s) ∧ s ≠ upState))

/-- First chunk of the mid-line split used against the log-watcher claim:
the first line cut in the middle of the interface name. -/
def midChunk1 : List Char := "Using interface pp".toList

/-- Second chunk of the mid-line split: the rest of the stream. -/
def midChunk2 : List Char := "p0\n".toList ++ logLine2 ++ logLine3 ++ logLine4

/-- An iteration oracle in which every descriptor would block and both TLS
directions report `SSL_ERROR_WANT_READ`. -/
def relayEnvExample : RelayEnv :=
  { logRead := OsRead.again, pppdRead := OsRead.data [1],
    sslRead := SslRead.wantRead, pppdWrite := OsWrite.again,
    sslWrite := SslWrite.wantRead }

/-- A relay state with a pending TLS write buffer. -/
def relayStateExample : RelayState :=
  { data_to_pppd := [], data_to_ssl := [], data_to_ssl_buf2 := [7, 8],
    ssl_write_blocked_on_read := false, ssl_read_blocked_on_write := false }

/-- The state reached from `relayStateExample` under `relayEnvExample` just
before the TLS write: the PTY read refilled `data_to_ssl` while the pending
TLS buffer stayed in place. -/
def relayStateExampleMid : RelayState :=
  { data_to_pppd := [], data_to_ssl := [1], data_to_ssl_buf2 := [7, 8],
    ssl_write_blocked_on_read := false, ssl_read_blocked_on_write := false }

/-! ## Theorems -/

/-- Helper: the last-write-wins session fold of `do_login` is determined by
the final regex match alone. -/
theorem session_foldl_last (l : List (List Char)) (init : Option (List Char)) :
    l.foldl (fun _ sessid => if sessid = deletedVal then none else some sessid) init
      = match l.getLast? with
        | none => init
        | some v => if v = deletedVal then none else some v := by
  induction l generalizing init with
  | nil => rfl
  | cons v t ih =>
    rw [List.foldl_cons, ih]
    cases t with
    | nil => simp [List.getLast?]
    | cons w t2 =>
      rw [List.getLast?_cons_cons]
      cases h : (w :: t2).getLast? with
      | none => simp at h
      | some x => simp

/-- C3 counterexample: in the login response below the cookie regex matches
the values `abc` and then `deleted`; `abc` is a matched value other than
`deleted`, yet the session ends up `None` rather than `abc`, because the
trailing `deleted` match resets the running `session` variable. -/
theorem do_login_session_trailing_deleted_cex :
    cookieMatches
        "Set-Cookie: MRHSession=abc;\nSet-Cookie: MRHSession=deleted;\n".toList
      = ["abc".toList, "deleted".toList] ∧
    "abc".toList ≠ deletedVal ∧
    do_login_session
        "Set-Cookie: MRHSession=abc;\nSet-Cookie: MRHSession=deleted;\n".toList
      ≠ some "abc".toList ∧
    do_login_session
        "Set-Cookie: MRHSession=abc;\nSet-Cookie: MRHSession=deleted;\n".toList
      = none := by
  decide

/-- C3 (amended): for every login response text, the extracted session is
determined by the last `Set-Cookie: MRHSession=...;` match alone: it is that
match value when it differs from the literal `deleted`, and `None` when the
last match is `deleted` or there is no match at all. -/
theorem do_login_session_last_match :
    ∀ result : List Char,
      do_login_session result
        = match (cookieMatches result).getLast? with
          | none => none
          | some v => if v = deletedVal then none else some v := by
  intro result
  unfold do_login_session
  exact session_foldl_last (cookieMatches result) none

/-- Witness for C3 at a concrete response with a single fresh cookie. -/
theorem do_login_session_last_match_witness :
    do_login_session "Set-Cookie: MRHSession=s1x;\n".toList = some "s1x".toList := by
  rw [do_login_session_last_match]
  decide

/-- C4: on the failing input `q0=61623d6364` (the key `q0` matches
`q[0-9]+`, and the value is the hex encoding of `ab=cd`), `decode_params`
raises AttributeError because Python 3 strings have no `decode` method, so
the decoded pair never reaches the returned mapping. -/
theorem decode_params_qnn_attribute_error :
    decode_params "q0=61623d6364".toList = Except.error PyErr.attributeError ∧
    matchesQnn "q0".toList = true :=
  ⟨rfl, rfl⟩

/-- C5: manual-backend DNS teardown.  A zero recorded timestamp changes
nothing; with the recorded timestamp nonzero and both files present, a
matching current mtime renames the backup over `/etc/resolv.conf`, and a
differing mtime leaves `/etc/resolv.conf` untouched and only deletes the
backup — for every recorded timestamp and filesystem state. -/
theorem manual_teardown_dns_spec :
    ∀ (recorded : Int) (fs : ResolvFS),
      (recorded = 0 → teardown_dns_manual recorded fs = fs) ∧
      (∀ f b, recorded ≠ 0 → fs.resolv_conf = some f → fs.resolv_bak = some b →
        (f.mtime = recorded →
          teardown_dns_manual recorded fs
            = { resolv_conf := some b, resolv_bak := none }) ∧
        (f.mtime ≠ recorded →
          teardown_dns_manual recorded fs
            = { resolv_conf := some f, resolv_bak := none })) := by
  intro recorded fs
  constructor
  · intro h
    simp [teardown_dns_manual, h]
  · intro f b hne hc hb
    constructor
    · intro hm
      simp [teardown_dns_manual, hne, hc, hb, hm]
    · intro hm
      simp [teardown_dns_manual, hne, hc, hb, hm]

/-- Witness for C5: recorded mtime 5 matching the current file restores the
backup over the configuration file. -/
theorem manual_teardown_dns_spec_witness :
    teardown_dns_manual 5
        { resolv_conf := some { mtime := 5, content := 1 },
          resolv_bak := some { mtime := 3, content := 2 } }
      = { resolv_conf := some { mtime := 3, content := 2 }, resolv_bak := none } :=
  ((manual_teardown_dns_spec 5
      { resolv_conf := some { mtime := 5, content := 1 },
        resolv_bak := some { mtime := 3, content := 2 } }).2
    { mtime := 5, content := 1 } { mtime := 3, content := 2 }
    (by decide) rfl rfl).1 rfl

/-- C7: `shutdown_pppd` on the three child states.  A still-running child
gets SIGTERM and a blocking wait, a child that exited with a nonzero status
is only reported, but a child that already exited with status 0 falls into
the kill branch and `os.kill` raises ProcessLookupError on the reaped pid —
the divergence from the claim, which requires every already-exited child to
be reported with no further wait or signal. -/
theorem shutdown_pppd_clean_exit :
    shutdown_pppd ChildState.running = ShutdownOutcome.sigtermAndWait ∧
    shutdown_pppd (ChildState.exited 256) = ShutdownOutcome.reportedExit 256 ∧
    shutdown_pppd (ChildState.exited 0) = ShutdownOutcome.killError := by
  decide

/-- C2 counterexample: splitting the log stream into the two nonempty chunks
`Using interface pp` / `p0\n...` (a boundary in the middle of the first
line) makes the watcher latch `pp` as the interface name, because `$`
matches at the end of the accumulated buffer; `ip_up` then fires once but
with first argument `pp`, not `ppp0`. -/
theorem logwatcher_midline_chunk_cex :
    midChunk1 ++ midChunk2 = fullLog ∧
    midChunk1 ≠ [] ∧ midChunk2 ≠ [] ∧
    runLogWatcher LogWatcher.init [midChunk1, midChunk2]
      = [{ iface := "pp".toList, tty := "/dev/pts/5".toList,
           local_ip := "10.0.0.2".toList, remote_ip := "10.0.0.1".toList }] ∧
    runLogWatcher LogWatcher.init [midChunk1, midChunk2] ≠ [expectedCall] := by
  decide

/-- C2 (amended): feeding the watcher the full log stream split into
nonempty chunks in every way whose boundaries lie at line ends makes
`ip_up` fire exactly once, with arguments
(`ppp0`, `/dev/pts/5`, `10.0.0.2`, `10.0.0.1`). -/
theorem logwatcher_line_aligned_chunks :
    ∀ b1 b2 b3 : Bool,
      runLogWatcher LogWatcher.init (lineChunks b1 b2 b3) = [expectedCall] := by
  decide

/-- Helper: shifting the readiness characterisation across a successful read
of a state other than `up` (which sets `already_unknown`). -/
theorem wfi_shift_read (s : List Char) (t : List Obs) (b : Bool) (hs : s ≠ upState) :
    ∀ i, wfiReady b (Obs.state s :: t) (i + 1) ↔ wfiReady true t i := by
  intro i
  constructor
  · intro h
    rcases h with h | ⟨hu, _⟩
    · left; simpa using h
    · right
      exact ⟨by simpa using hu, Or.inl rfl⟩
  · intro h
    rcases h with h | ⟨hu, _⟩
    · left; simpa using h
    · right
      refine ⟨by simpa using hu, Or.inr ?_⟩
      exact ⟨0, s, by omega, by simp, hs⟩

/-- Helper: shifting the readiness characterisation across an IOError poll
(which leaves `already_unknown` untouched). -/
theorem wfi_shift_ioerr (t : List Obs) (b : Bool) :
    ∀ i, wfiReady b (Obs.ioError :: t) (i + 1) ↔ wfiReady b t i := by
  intro i
  constructor
  · rintro (h | ⟨hu, hflag⟩)
    · left; simpa using h
    · right
      refine ⟨by simpa using hu, ?_⟩
      rcases hflag with hb | ⟨j, s', hj, hjs, hsne⟩
      · exact Or.inl hb
      · cases j with
        | zero => simp at hjs
        | succ j' => exact Or.inr ⟨j', s', by omega, by simpa using hjs, hsne⟩
  · rintro (h | ⟨hu, hflag⟩)
    · left; simpa using h
    · right
      refine ⟨by simpa using hu, ?_⟩
      rcases hflag with hb | ⟨j, s', hj, hjs, hsne⟩
      · exact Or.inl hb
      · exact Or.inr ⟨j + 1, s', by omega, by simpa using hjs, hsne⟩

/-- Helper: an observation that reads a state other than `up`, and reads
`unknown` only with the flag still clear, does not end the loop. -/
theorem wfi_not0_state (s : List Char) (t : List Obs) (b : Bool)
    (hup : s ≠ upState) (h2 : s = unknownState → b ≠ true) :
    ¬ wfiReady b (Obs.state s :: t) 0 := by
  rintro (h | ⟨hu, hflag⟩)
  · simp at h
    exact hup h
  · simp at hu
    rcases hflag with hb | ⟨j, s', hj, _, _⟩
    · exact h2 hu hb
    · omega

/-- Helper: an IOError observation never ends the loop. -/
theorem wfi_not0_ioerr (t : List Obs) (b : Bool) :
    ¬ wfiReady b (Obs.ioError :: t) 0 := by
  rintro (h | ⟨hu, _⟩)
  · simp at h
  · simp at hu

/-- Helper: propagate the three-part characterisation one observation
inward, given the run equation, the index shift and non-readiness of the
head. -/
theorem wfi_char_cons (o : Obs) (t : List Obs) (b a' : Bool)
    (hrun : wfi_run b (o :: t) = (wfi_run a' t).map (· + 1))
    (hshift : ∀ i, wfiReady b (o :: t) (i + 1) ↔ wfiReady a' t i)
    (hnot0 : ¬ wfiReady b (o :: t) 0)
    (ihA : ∀ i, wfi_run a' t = some i → wfiReady a' t i)
    (ihB : wfi_run a' t = none → ∀ i, ¬ wfiReady a' t i)
    (ihC : ∀ i j, wfi_run a' t = some i → j < i → ¬ wfiReady a' t j) :
    (∀ i, wfi_run b (o :: t) = some i → wfiReady b (o :: t) i) ∧
    (wfi_run b (o :: t) = none → ∀ i, ¬ wfiReady b (o :: t) i) ∧
    (∀ i j, wfi_run b (o :: t) = some i → j < i → ¬ wfiReady b (o :: t) j) := by
  refine ⟨?_, ?_, ?_⟩
  · intro i h
    rw [hrun] at h
    cases hr : wfi_run a' t with
    | none => rw [hr] at h; simp at h
    | some i' =>
      rw [hr] at h
      simp at h
      subst h
      exact (hshift i').mpr (ihA i' hr)
  · intro h i
    rw [hrun] at h
    cases hr : wfi_run a' t with
    | some i' => rw [hr] at h; simp at h
    | none =>
      cases i with
      | zero => exact hnot0
      | succ i' => exact fun hready => ihB hr i' ((hshift i').mp hready)
  · intro i j h hj
    rw [hrun] at h
    cases hr : wfi_run a' t with
    | none => rw [hr] at h; simp at h
    | some i' =>
      rw [hr] at h
      simp at h
      subst h
      cases j with
      | zero => exact hnot0
      | succ j' => exact fun hready => ihC i' j' hr (by omega) ((hshift j').mp hready)

/-- Helper: full characterisation of `wait_for_interface` runs for an
arbitrary initial flag: the loop ends exactly at the first observation
satisfying `wfiReady`. -/
theorem wfi_run_char :
    ∀ (l : List Obs) (b : Bool),
      (∀ i, wfi_run b l = some i → wfiReady b l i) ∧
      (wfi_run b l = none → ∀ i, ¬ wfiReady b l i) ∧
      (∀ i j, wfi_run b l = some i → j < i → ¬ wfiReady b l j) := by
  intro l
  induction l with
  | nil =>
    intro b
    refine ⟨?_, ?_, ?_⟩
    · intro i h
      simp [wfi_run] at h
    · intro _ i
      rintro (h | ⟨hu, _⟩)
      · simp at h
      · simp at hu
    · intro i j h
      simp [wfi_run] at h
  | cons o t ih =>
    intro b
    cases o with
    | state s =>
      by_cases hup : s = upState
      · have hrun : wfi_run b (Obs.state s :: t) = some 0 := by
          simp [wfi_run, wfi_step, hup]
        refine ⟨?_, ?_, ?_⟩
        · intro i h
          rw [hrun] at h
          injection h with h
          subst h
          left
          simp [hup]
        · intro h
          rw [hrun] at h
          exact absurd h (by simp)
        · intro i j h hj
          rw [hrun] at h
          injection h with h
          omega
      · by_cases hunk : s = unknownState
        · by_cases hb : b = true
          · have hrun : wfi_run b (Obs.state s :: t) = some 0 := by
              simp [wfi_run, wfi_step, hup, hunk, hb,
                show unknownState ≠ upState by decide]
            refine ⟨?_, ?_, ?_⟩
            · intro i h
              rw [hrun] at h
              injection h with h
              subst h
              right
              exact ⟨by simp [hunk], Or.inl hb⟩
            · intro h
              rw [hrun] at h
              exact absurd h (by simp)
            · intro i j h hj
              rw [hrun] at h
              injection h with h
              omega
          · have hb' : b = false := by revert hb; cases b <;> simp
            subst hb'
            have hrun : wfi_run false (Obs.state s :: t)
                = (wfi_run true t).map (· + 1) := by
              simp [wfi_run, wfi_step, hup, hunk,
                show unknownState ≠ upState by decide]
            exact wfi_char_cons _ t false true hrun
              (wfi_shift_read s t false hup)
              (wfi_not0_state s t false hup (fun _ => by simp))
              (ih true).1 (ih true).2.1 (ih true).2.2
        · have hrun : wfi_run b (Obs.state s :: t)
              = (wfi_run true t).map (· + 1) := by
            simp [wfi_run, wfi_step, hup, hunk]
          exact wfi_char_cons _ t b true hrun
            (wfi_shift_read s t b hup)
            (wfi_not0_state s t b hup (fun h => absurd h hunk))
            (ih true).1 (ih true).2.1 (ih true).2.2
    | ioError =>
      have hrun : wfi_run b (Obs.ioError :: t) = (wfi_run b t).map (· + 1) := by
        simp [wfi_run, wfi_step]
      exact wfi_char_cons _ t b b hrun
        (wfi_shift_ioerr t b)
        (wfi_not0_ioerr t b)
        (ih b).1 (ih b).2.1 (ih b).2.2

/-- C6 counterexample: on the observation sequence `down`, `unknown` the
loop declares the interface ready at the second observation, an `unknown`
whose predecessor is not `unknown` — so readiness does not require a second
consecutive `unknown` observation. -/
theorem wait_for_interface_down_unknown_cex :
    wfi_run false [Obs.state "down".toList, Obs.state unknownState] = some 1 ∧
    [Obs.state "down".toList, Obs.state unknownState].get? 0
      ≠ some (Obs.state unknownState) := by
  decide

/-- C6 (amended): for every observation sequence, `wait_for_interface`
(started with `already_unknown` clear) stops exactly at the first
observation that either reads `up`, or reads `unknown` after some earlier
observation successfully read a state other than `up` (whether `unknown` or
any other state); all other observations, including IOError from a missing
state file, keep it polling. -/
theorem wait_for_interface_ready_iff :
    ∀ l : List Obs,
      (∀ i, wfi_run false l = some i → wfiReady false l i) ∧
      (wfi_run false l = none → ∀ i, ¬ wfiReady false l i) ∧
      (∀ i j, wfi_run false l = some i → j < i → ¬ wfiReady false l j) :=
  fun l => wfi_run_char l false

/-- Witness for C6: after an IOError poll, an `up` read at index 1 ends the
loop, and the characterisation applies to it. -/
theorem wait_for_interface_ready_iff_witness :
    wfiReady false [Obs.ioError, Obs.state upState] 1 :=
  (wait_for_interface_ready_iff [Obs.ioError, Obs.state upState]).1 1 (by decide)

/-- Helper: the log-pipe read never changes the relay state when the loop
survives it. -/
theorem stepLog_some {e : RelayEnv} {s t : RelayState}
    (h : stepLog e s = some t) : t = s := by
  unfold stepLog at h
  cases he : e.logRead with
  | data b =>
    rw [he] at h
    cases b with
    | nil => simp at h
    | cons c cs => simp at h; rw [h]
  | again => rw [he] at h; simp at h; rw [h]
  | fail => rw [he] at h; simp at h

/-- Helper: the PTY read leaves `data_to_ssl_buf2` unchanged. -/
theorem stepReadPppd_buf2 {e : RelayEnv} {s t : RelayState}
    (h : stepReadPppd e s = some t) :
    t.data_to_ssl_buf2 = s.data_to_ssl_buf2 := by
  unfold stepReadPppd at h
  by_cases hd : s.data_to_ssl ≠ []
  · simp [hd] at h
    rw [← h]
  · simp [hd] at h
    cases he : e.pppdRead with
    | data b =>
      rw [he] at h
      cases b with
      | nil => simp at h
      | cons c cs => simp at h; rw [← h]
    | again => rw [he] at h; simp at h; rw [← h]
    | fail => rw [he] at h; simp at h

/-- Helper: the TLS read leaves `data_to_ssl_buf2` unchanged. -/
theorem stepReadSsl_buf2 {e : RelayEnv} {s t : RelayState}
    (h : stepReadSsl e s = some t) :
    t.data_to_ssl_buf2 = s.data_to_ssl_buf2 := by
  unfold stepReadSsl at h
  by_cases hd : s.data_to_pppd ≠ []
  · simp [hd] at h
    rw [← h]
  · simp [hd] at h
    cases he : e.sslRead with
    | data b =>
      rw [he] at h
      cases b with
      | nil => simp at h
      | cons c cs => simp at h; rw [← h]
    | wantRead => rw [he] at h; simp at h; rw [← h]
    | wantWrite => rw [he] at h; simp at h; rw [← h]
    | fail => rw [he] at h; simp at h

/-- Helper: the PTY write leaves `data_to_ssl_buf2` unchanged. -/
theorem stepWritePppd_buf2 {e : RelayEnv} {s t : RelayState}
    (h : stepWritePppd e s = some t) :
    t.data_to_ssl_buf2 = s.data_to_ssl_buf2 := by
  unfold stepWritePppd at h
  by_cases hd : s.data_to_pppd = []
  · simp [hd] at h
    rw [← h]
  · simp [hd] at h
    cases he : e.pppdWrite with
    | wrote n => rw [he] at h; simp at h; rw [← h]
    | again => rw [he] at h; simp at h; rw [← h]
    | fail => rw [he] at h; simp at h

/-- Helper: promotion does nothing when `data_to_ssl_buf2` is nonempty. -/
theorem stepPromote_nonempty {s : RelayState}
    (h : s.data_to_ssl_buf2 ≠ []) : stepPromote s = s := by
  unfold stepPromote
  simp [h]

/-- Helper: across the part of an iteration before the TLS write, a nonempty
`data_to_ssl_buf2` is never touched. -/
theorem preWriteSsl_preserves_buf2 {e : RelayEnv} {s t : RelayState}
    (h : preWriteSsl e s = some t) (hne : s.data_to_ssl_buf2 ≠ []) :
    t.data_to_ssl_buf2 = s.data_to_ssl_buf2 := by
  unfold preWriteSsl at h
  cases h1 : stepLog e s with
  | none => rw [h1] at h; simp at h
  | some s1 =>
    rw [h1] at h
    simp only [] at h
    cases h2 : stepReadPppd e s1 with
    | none => rw [h2] at h; simp at h
    | some s2 =>
      rw [h2] at h
      simp only [] at h
      cases h3 : stepReadSsl e s2 with
      | none => rw [h3] at h; simp at h
      | some s3 =>
        rw [h3] at h
        simp only [] at h
        cases h4 : stepWritePppd e s3 with
        | none => rw [h4] at h; simp at h
        | some s4 =>
          rw [h4] at h
          simp at h
          have e1 : s1.data_to_ssl_buf2 = s.data_to_ssl_buf2 := by
            rw [stepLog_some h1]
          have e2 : s2.data_to_ssl_buf2 = s.data_to_ssl_buf2 := by
            rw [stepReadPppd_buf2 h2, e1]
          have e3 : s3.data_to_ssl_buf2 = s.data_to_ssl_buf2 := by
            rw [stepReadSsl_buf2 h3, e2]
          have e4 : s4.data_to_ssl_buf2 = s.data_to_ssl_buf2 := by
            rw [stepWritePppd_buf2 h4, e3]
          rw [← h, stepPromote_nonempty (by rw [e4]; exact hne), e4]

/-- C1: pointer stability of the TLS write buffer in the relay loop, for
every state and every iteration oracle.  (i) A nonempty `data_to_ssl_buf2`
survives the whole pre-write part of an iteration unchanged, so it is never
refilled while nonempty.  (ii) Promotion moves the entire content of
`data_to_ssl` and happens only into an empty `data_to_ssl_buf2`.  (iii) A
TLS write that fails with `WANT_READ` or `WANT_WRITE` leaves the buffer
exactly as presented, and the write retried in any later surviving
iteration is presented exactly the same bytes.  (iv) The buffer is cleared
only by a TLS write that consumed it entirely. -/
theorem relay_buf2_pointer_stability :
    ∀ (e : RelayEnv) (s t : RelayState), preWriteSsl e s = some t →
      ((s.data_to_ssl_buf2 ≠ [] → t.data_to_ssl_buf2 = s.data_to_ssl_buf2) ∧
       (∀ u : RelayState,
         (u.data_to_ssl_buf2 = [] ∧ u.data_to_ssl ≠ [] →
           stepPromote u
             = { u with data_to_ssl_buf2 := u.data_to_ssl, data_to_ssl := [] }) ∧
         (u.data_to_ssl_buf2 ≠ [] → stepPromote u = u)) ∧
       (t.data_to_ssl_buf2 ≠ [] →
         (e.sslWrite = SslWrite.wantRead ∨ e.sslWrite = SslWrite.wantWrite) →
         ∃ u, stepWriteSsl e t = some u ∧
           u.data_to_ssl_buf2 = t.data_to_ssl_buf2 ∧
           ∀ e' u', preWriteSsl e' u = some u' →
             u'.data_to_ssl_buf2 = t.data_to_ssl_buf2) ∧
       (∀ u, stepWriteSsl e t = some u → u.data_to_ssl_buf2 = [] →
         t.data_to_ssl_buf2 = [] ∨ e.sslWrite = SslWrite.ok)) := by
  intro e s t h
  refine ⟨fun hne => preWriteSsl_preserves_buf2 h hne, ?_, ?_, ?_⟩
  · intro u
    constructor
    · intro ⟨hb, hd⟩
      unfold stepPromote
      simp [hb, hd]
    · exact stepPromote_nonempty
  · intro htne hw
    rcases hw with hw | hw
    · refine ⟨{ t with ssl_write_blocked_on_read := true }, ?_, rfl, ?_⟩
      · unfold stepWriteSsl
        simp [htne, hw]
      · intro e' u' h'
        have hres := preWriteSsl_preserves_buf2 h' htne
        exact hres
    · refine ⟨{ t with ssl_write_blocked_on_read := false }, ?_, rfl, ?_⟩
      · unfold stepWriteSsl
        simp [htne, hw]
      · intro e' u' h'
        have hres := preWriteSsl_preserves_buf2 h' htne
        exact hres
  · intro u hu hbu
    by_cases htb : t.data_to_ssl_buf2 = []
    · exact Or.inl htb
    · right
      unfold stepWriteSsl at hu
      simp [htb] at hu
      cases he : e.sslWrite with
      | ok => rfl
      | wantRead =>
        rw [he] at hu
        simp at hu
        rw [← hu] at hbu
        exact absurd hbu htb
      | wantWrite =>
        rw [he] at hu
        simp at hu
        rw [← hu] at hbu
        exact absurd hbu htb
      | fail => rw [he] at hu; simp at hu

/-- Witness for C1: a concrete iteration with a pending two-byte TLS buffer
in which every other call would block; the buffer reaches the TLS write
untouched even though the PTY read refilled `data_to_ssl`. -/
theorem relay_buf2_pointer_stability_witness :
    relayStateExampleMid.data_to_ssl_buf2 = relayStateExample.data_to_ssl_buf2 :=
  (relay_buf2_pointer_stability relayEnvExample relayStateExample
      relayStateExampleMid (by decide)).1 (by decide)

/-- Helper: characterisation of the `routespec_to_revdns` loop for an
arbitrary starting octet index and accumulated domain: a prefix length that
is a multiple of 8 yields a single domain extending the accumulated one,
and a ragged prefix yields the block of `2 ^ (8 - bits mod 8)` domains with
the block members prepended to a domain extending the accumulated one. -/
theorem revdnsAux_spec :
    ∀ (bits : Nat) (np : List Nat) (i : Nat) (domain : List Char),
      (bits % 8 = 0 → ∃ D, revdnsAux np i bits domain = [D] ∧ domain <:+ D) ∧
      (bits % 8 ≠ 0 → ∃ D, domain <:+ D ∧
        revdnsAux np i bits domain
          = (List.range (2 ^ (8 - bits % 8))).map
              (fun n =>
                (Nat.repr (andNotMask (np.getD (i + bits / 8) 0) (8 - bits % 8) + n)).toList
                  ++ '.' :: D)) := by
  intro bits
  induction bits using Nat.strong_induction_on with
  | _ bits ih =>
    intro np i domain
    by_cases h8 : 8 ≤ bits
    · have hlt : bits - 8 < bits := by omega
      have hmod : (bits - 8) % 8 = bits % 8 := by omega
      have hdiv : i + 1 + (bits - 8) / 8 = i + bits / 8 := by omega
      have hsuf : domain <:+ (Nat.repr (np.getD i 0)).toList ++ '.' :: domain :=
        ⟨(Nat.repr (np.getD i 0)).toList ++ ['.'], by simp⟩
      obtain ⟨ihA, ihB⟩ :=
        ih (bits - 8) hlt np (i + 1) ((Nat.repr (np.getD i 0)).toList ++ '.' :: domain)
      constructor
      · intro hz
        obtain ⟨D, hD, hsufD⟩ := ihA (by omega)
        refine ⟨D, ?_, hsuf.trans hsufD⟩
        rw [revdnsAux]
        simp only [dif_pos h8]
        exact hD
      · intro hnz
        obtain ⟨D, hsufD, hD⟩ := ihB (by omega)
        rw [hmod, hdiv] at hD
        refine ⟨D, hsuf.trans hsufD, ?_⟩
        rw [revdnsAux]
        simp only [dif_pos h8]
        exact hD
    · have hmod : bits % 8 = bits := Nat.mod_eq_of_lt (by omega)
      have hdiv : bits / 8 = 0 := Nat.div_eq_of_lt (by omega)
      constructor
      · intro hz
        have hb0 : bits = 0 := by omega
        subst hb0
        refine ⟨domain, ?_, List.suffix_refl domain⟩
        rw [revdnsAux]
        simp
      · intro hnz
        have hb0 : bits ≠ 0 := by omega
        refine ⟨domain, List.suffix_refl domain, ?_⟩
        rw [revdnsAux]
        simp only [dif_neg h8, if_neg (by omega : ¬ bits = 0)]
        rw [hmod, hdiv]
        simp

/-- C8: for every four-octet `netparts` with octets below 256 and every
`bits ≤ 32`, `routespec_to_revdns` returns exactly one domain when `bits`
is a multiple of 8, and otherwise the block of `2 ^ (8 - bits mod 8)`
domains obtained by prepending the integers of
`[start, start + 2 ^ (8 - bits mod 8))` with
`start = netparts[bits / 8] & ~(2 ^ (8 - bits mod 8) - 1)`; and every
returned domain ends in `in-addr.arpa`. -/
theorem routespec_to_revdns_spec :
    ∀ (netparts : List Nat) (bits : Nat),
      netparts.length = 4 → (∀ x ∈ netparts, x < 256) → bits ≤ 32 →
      ((bits % 8 = 0 → (routespec_to_revdns netparts bits).length = 1) ∧
       (bits % 8 ≠ 0 → ∃ D,
         routespec_to_revdns netparts bits
           = (List.range (2 ^ (8 - bits % 8))).map
               (fun n =>
                 (Nat.repr (andNotMask (netparts.getD (bits / 8) 0) (8 - bits % 8) + n)).toList
                   ++ '.' :: D) ∧
         (routespec_to_revdns netparts bits).length = 2 ^ (8 - bits % 8)) ∧
       (∀ d ∈ routespec_to_revdns netparts bits, arpaBase <:+ d)) := by
  intro np bits _hlen _hoct _hb
  obtain ⟨hA, hB⟩ := revdnsAux_spec bits np 0 arpaBase
  refine ⟨?_, ?_, ?_⟩
  · intro hz
    obtain ⟨D, hD, _⟩ := hA hz
    unfold routespec_to_revdns
    rw [hD]
    rfl
  · intro hnz
    obtain ⟨D, _, hD⟩ := hB hnz
    rw [Nat.zero_add] at hD
    refine ⟨D, ?_, ?_⟩
    · unfold routespec_to_revdns
      exact hD
    · unfold routespec_to_revdns
      rw [hD]
      simp
  · intro d hd
    unfold routespec_to_revdns at hd
    by_cases hz : bits % 8 = 0
    · obtain ⟨D, hD, hsuf⟩ := hA hz
      rw [hD] at hd
      simp at hd
      rw [hd]
      exact hsuf
    · obtain ⟨D, hsuf, hD⟩ := hB hz
      rw [hD] at hd
      simp only [List.mem_map, List.mem_range] at hd
      obtain ⟨n, _, hn⟩ := hd
      rw [← hn]
      exact hsuf.trans ((List.suffix_cons '.' D).trans (List.suffix_append _ _))

/-- Witness for C8 at the concrete input `netparts = [10, 1, 2, 3]`,
`bits = 16`: a multiple of 8 yields a single reverse-DNS domain. -/
theorem routespec_to_revdns_spec_witness :
    (routespec_to_revdns [10, 1, 2, 3] 16).length = 1 :=
  (routespec_to_revdns_spec [10, 1, 2, 3] 16 rfl (by decide) (by decide)).1 (by decide)

/-- Helper: the contiguous mask with `x` leading ones as a shifted block of
ones. -/
theorem maskVal_eq {x : Nat} (hx : x ≤ 32) :
    2 ^ 32 - 2 ^ (32 - x) = (2 ^ x - 1) * 2 ^ (32 - x) := by
  have h : x + (32 - x) = 32 := by omega
  calc 2 ^ 32 - 2 ^ (32 - x) = 2 ^ (x + (32 - x)) - 2 ^ (32 - x) := by rw [h]
    _ = 2 ^ x * 2 ^ (32 - x) - 2 ^ (32 - x) := by rw [pow_add]
    _ = (2 ^ x - 1) * 2 ^ (32 - x) := by rw [Nat.sub_one_mul]

/-- Helper: bit `p` of the contiguous mask with `x` leading ones is set
exactly for `32 - x ≤ p < 32`. -/
theorem testBit_contiguous_mask {x : Nat} (hx : x ≤ 32) (p : Nat) :
    (2 ^ 32 - 2 ^ (32 - x)).testBit p
      = (decide (32 - x ≤ p) && decide (p < 32)) := by
  rw [maskVal_eq hx, ← Nat.shiftLeft_eq, Nat.testBit_shiftLeft,
    Nat.testBit_two_pow_sub_one]
  by_cases hge : 32 - x ≤ p
  · simp only [ge_iff_le, hge, decide_True, Bool.true_and]
    exact decide_eq_decide.mpr (by omega)
  · simp [hge]

/-- Helper: a successful `mask2bits` lookup names a contiguous mask. -/
theorem mask2bits_get_some {m x : Nat} (h : mask2bits_get m = some x) :
    x ≤ 32 ∧ m = 2 ^ 32 - 2 ^ (32 - x) := by
  unfold mask2bits_get at h
  have hp := List.find?_some h
  have hm := List.mem_of_find?_eq_some h
  simp only [List.mem_range] at hm
  simp only [beq_iff_eq] at hp
  exact ⟨by omega, hp.symm⟩

/-- Helper: `find?` over an initial segment of the naturals returns the
first satisfying index. -/
theorem find?_range_eq_some {p : Nat → Bool} {k n : Nat} (hn : n < k)
    (hp : p n = true) (hmin : ∀ m, m < n → p m = false) :
    (List.range k).find? p = some n := by
  induction k with
  | zero => omega
  | succ k ih =>
    rw [List.range_succ, List.find?_append]
    by_cases hnk : n < k
    · rw [ih hnk]
      rfl
    · have hnk' : n = k := by omega
      subst hnk'
      have hnone : (List.range n).find? p = none := by
        rw [List.find?_eq_none]
        intro x hx
        simp only [List.mem_range] at hx
        simp [hmin x hx]
      rw [hnone]
      simp [List.find?, hp]

/-- Helper: the contiguous masks are strictly increasing in the number of
leading ones. -/
theorem maskVal_strictMono {a b : Nat} (hab : a < b) (hb : b ≤ 32) :
    2 ^ 32 - 2 ^ (32 - a) < 2 ^ 32 - 2 ^ (32 - b) := by
  have h1 : (2 : Nat) ^ (32 - b) < 2 ^ (32 - a) :=
    Nat.pow_lt_pow_of_lt (by norm_num) (by omega)
  have h2 : (2 : Nat) ^ (32 - a) ≤ 2 ^ 32 :=
    Nat.pow_le_pow_right (by norm_num) (by omega)
  omega

/-- Helper: looking up the contiguous mask with `n` leading ones yields
`n`. -/
theorem mask2bits_get_mask {n : Nat} (hn : n ≤ 32) :
    mask2bits_get (2 ^ 32 - 2 ^ (32 - n)) = some n := by
  unfold mask2bits_get
  apply find?_range_eq_some (by omega)
  · simp
  · intro m hm
    simp only [beq_eq_false_iff_ne, ne_eq]
    have := maskVal_strictMono hm hn
    omega

/-- C9: for every route spec `w.x.y.z/A.B.C.D` with octets below 256, the
dotted-netmask branch of `parse_net_bits` fails (raising InvalidRouteSpec)
whenever the 32-bit netmask value has a zero bit followed by a one bit, and
for every contiguous netmask `2^32 - 2^(32-n)` it succeeds, returning the
corresponding prefix length `n`. -/
theorem parse_net_bits_netmask_contiguity :
    ∀ w x y z A B C D : Nat,
      A < 256 → B < 256 → C < 256 → D < 256 →
      ((∃ p q, q < p ∧ p < 32 ∧
          (((A * 256 + B) * 256 + C) * 256 + D).testBit p = false ∧
          (((A * 256 + B) * 256 + C) * 256 + D).testBit q = true) →
        parse_net_bits_dotted [w, x, y, z] [A, B, C, D] = none) ∧
      (∀ n, n ≤ 32 →
        ((A * 256 + B) * 256 + C) * 256 + D = 2 ^ 32 - 2 ^ (32 - n) →
        parse_net_bits_dotted [w, x, y, z] [A, B, C, D]
          = some ([w, x, y, z], n)) := by
  intro w x y z A B C D hA hB hC hD
  have hred : parse_net_bits_dotted [w, x, y, z] [A, B, C, D]
      = (mask2bits_get (((A * 256 + B) * 256 + C) * 256 + D)).map
          (fun bits => ([w, x, y, z], bits)) := by
    unfold parse_net_bits_dotted
    norm_num [List.foldl]
  constructor
  · rintro ⟨p, q, hqp, hp32, hbp, hbq⟩
    rw [hred]
    cases hg : mask2bits_get (((A * 256 + B) * 256 + C) * 256 + D) with
    | none => rfl
    | some nn =>
      exfalso
      obtain ⟨hn32, hmask⟩ := mask2bits_get_some hg
      rw [hmask, testBit_contiguous_mask hn32] at hbp hbq
      simp only [Bool.and_eq_false_iff, Bool.and_eq_true, decide_eq_true_eq,
        decide_eq_false_iff_not] at hbp hbq
      omega
  · intro n hn hmask
    rw [hred, hmask, mask2bits_get_mask hn]
    rfl

/-- Witness for C9: the non-contiguous netmask `255.0.255.0` (bit 23 clear,
bit 8 set) is rejected. -/
theorem parse_net_bits_netmask_contiguity_witness :
    parse_net_bits_dotted [10, 0, 0, 0] [255, 0, 255, 0] = none :=
  (parse_net_bits_netmask_contiguity 10 0 0 0 255 0 255 0
      (by decide) (by decide) (by decide) (by decide)).1
    ⟨23, 8, by decide, by decide, by decide, by decide⟩

/-- Helper: a socket or SSL error after any number of successful one-byte
reads ends the loop with exactly the bytes read so far. -/
theorem send_request_body_err (rest : List RRes) :
    ∀ bs : List Nat,
      send_request_body (bs.map (fun c => RRes.bytes [c]) ++ RRes.err :: rest) = bs := by
  intro bs
  induction bs with
  | nil => rfl
  | cons c t ih =>
    show [c] ++ send_request_body (t.map (fun c => RRes.bytes [c]) ++ RRes.err :: rest) = c :: t
    rw [ih]
    rfl

/-- C10 counterexample: a read script that delivers the single byte 0xC3
(the first byte of a two-byte UTF-8 sequence) and then raises a socket/SSL
error.  The error is swallowed and the loop ends with the accumulated byte,
but the final `data.decode('utf-8')` raises UnicodeDecodeError (`none`), so
`send_request` does not return the accumulated bytes decoded as UTF-8 at
this error point. -/
theorem send_request_partial_utf8_cex :
    send_request_body [RRes.bytes [195], RRes.err] = [195] ∧
    send_request_read [RRes.bytes [195], RRes.err] = none := by
  constructor <;> rfl

/-- C10 (amended): a socket or SSL error at any point of the response-body
read loop is swallowed and treated as end-of-stream, the loop keeping
exactly the bytes accumulated so far regardless of what the connection
would have delivered later; `send_request` then returns those bytes decoded
as UTF-8 whenever they form valid UTF-8 (when the truncation leaves invalid
UTF-8, the final decode itself raises UnicodeDecodeError, though no socket
or SSL error ever propagates). -/
theorem send_request_error_treated_as_eof :
    ∀ (bs : List Nat) (rest : List RRes),
      send_request_body (bs.map (fun c => RRes.bytes [c]) ++ RRes.err :: rest) = bs ∧
      (∀ u, utf8Decode bs = some u →
        send_request_read (bs.map (fun c => RRes.bytes [c]) ++ RRes.err :: rest)
          = some u) := by
  intro bs rest
  refine ⟨send_request_body_err rest bs, ?_⟩
  intro u hu
  unfold send_request_read
  rw [send_request_body_err rest bs, hu]

/-- Witness for C10: reading the two ASCII bytes of `ab` and then hitting a
socket error returns the decoded string `ab` even though more data was
scripted after the error. -/
theorem send_request_error_treated_as_eof_witness :
    send_request_body
        (([97, 98] : List Nat).map (fun c => RRes.bytes [c])
          ++ RRes.err :: [RRes.bytes [99]]) = [97, 98] ∧
    send_request_read
        (([97, 98] : List Nat).map (fun c => RRes.bytes [c])
          ++ RRes.err :: [RRes.bytes [99]]) = some [97, 98] :=
  ⟨(send_request_error_treated_as_eof [97, 98] [RRes.bytes [99]]).1,
   (send_request_error_treated_as_eof [97, 98] [RRes.bytes [99]]).2 [97, 98] (by rfl)⟩
